import Mathlib

/-!
Shallow embedding of the go.tftp repository (package `packet` in
`src/packet/packet.go` and package `tftp` in `src/server.go`).

Bytes are modelled as `Nat` (values below 256 where relevant); byte
sources (`io.Reader` over a datagram) are `List Nat` read from the
front; Go strings are byte lists.  Fallible reads return `Except Err`;
the nil-interface method call that Go performs on an unknown opcode is
modelled as the distinguished outcome `ReadOutcome.panicked`.
-/

/-- The byte order detected for a packet (`binary.LittleEndian` /
`binary.BigEndian`). -/
inductive ByteOrder where
  | little
  | big
deriving DecidableEq, Repr

/-- I/O errors surfaced by reads: `io.EOF` and `io.ErrUnexpectedEOF`
(the latter is what `binary.Read` reports on a partially available
integer). -/
inductive Err where
  | eof
  | unexpectedEOF
deriving DecidableEq, Repr

/-- The five packet variants of `src/packet/packet.go`: `Rrq`, `Wrq`,
`Data`, `Ack`, `Error`.  String fields (`Filename`, `Mode`, `ErrorMsg`)
are byte lists; `BlockNum` and `ErrorCode` are 16-bit values. -/
inductive Packet where
  | rrq (filename mode : List Nat)
  | wrq (filename mode : List Nat)
  | data (blockNum : Nat) (payload : List Nat)
  | ack (blockNum : Nat)
  | error (errorCode : Nat) (errorMsg : List Nat)
deriving DecidableEq, Repr

/-- Whether a packet is a `Data` packet (the type assertion
`pkt.(*packet.Data)` in `src/server.go`). -/
def Packet.isData : Packet → Bool
  | .data _ _ => true
  | _ => false

/-- Outcome of `ReadPacket`: a packet together with its inferred byte
order, an I/O error, or a runtime panic (calling `readFrom` on the nil
interface left by the opcode switch). -/
inductive ReadOutcome where
  | ok (p : Packet) (order : ByteOrder)
  | err (e : Err)
  | panicked
deriving DecidableEq, Repr

/-- `readString` from `src/packet/packet.go` lines 147-163: reads bytes
one at a time, accumulating until a NUL byte is found; any read error
(the source running out) is returned as-is.  On success, returns the
accumulated bytes (without the NUL) and the remaining source. -/
def readString : List Nat → Except Err (List Nat × List Nat)
  | [] => .error .eof
  | b :: tl =>
    if b = 0 then .ok ([], tl)
    else
      match readString tl with
      | .error e => .error e
      | .ok (s, rest) => .ok (b :: s, rest)

/-- `binary.Read` of a `uint16` in the given order: exactly two bytes
are required (`io.ReadFull` semantics: `EOF` on an empty source,
`ErrUnexpectedEOF` on a single byte). -/
def readU16 (order : ByteOrder) : List Nat → Except Err (Nat × List Nat)
  | [] => .error .eof
  | [_] => .error .unexpectedEOF
  | b0 :: b1 :: rest =>
    match order with
    | .little => .ok (b0 + 256 * b1, rest)
    | .big => .ok (256 * b0 + b1, rest)

/-- `Rq.readFrom` (lines 107-114): reads the filename string, then the
mode string, propagating the first error. -/
def rqReadFrom (src : List Nat) : Except Err ((List Nat × List Nat) × List Nat) :=
  match readString src with
  | .error e => .error e
  | .ok (f, r1) =>
    match readString r1 with
    | .error e => .error e
    | .ok (m, r2) => .ok ((f, m), r2)

/-- `Data.readFrom` (lines 124-132): reads the 16-bit block number in
the detected order, then allocates a 512-byte buffer and performs one
`r.Read` into it, ignoring the byte count.  On a non-empty source the
buffer keeps its full 512-byte length, the unread tail staying zero;
on an empty source `Read` reports `EOF`, which is returned as an
error. -/
def dataReadFrom (order : ByteOrder) (src : List Nat) :
    Except Err ((Nat × List Nat) × List Nat) :=
  match readU16 order src with
  | .error e => .error e
  | .ok (bn, rest) =>
    if rest = [] then .error .eof
    else .ok ((bn, rest.take 512 ++ List.replicate (512 - rest.length) 0), rest.drop 512)

/-- `Error.readFrom` (lines 138-145): reads the 16-bit error code, then
the NUL-terminated message string. -/
def errorReadFrom (order : ByteOrder) (src : List Nat) :
    Except Err ((Nat × List Nat) × List Nat) :=
  match readU16 order src with
  | .error e => .error e
  | .ok (c, rest) =>
    match readString rest with
    | .error e => .error e
    | .ok (msg, r2) => .ok ((c, msg), r2)

/-- The byte-order normalization step of `ReadPacket` (lines 74-85):
the opcode is read as little-endian; a value above `ERROR` (5) means the
wrong endianness was assumed, so it is shifted right 8 bits and the
order recorded as big-endian. -/
def normalizeOpcode (v : Nat) : Nat × ByteOrder :=
  if v > 5 then (v >>> 8, .big) else (v, .little)

/-- The opcode switch of `ReadPacket` (lines 87-103) together with the
final `ret.readFrom(r, order)`: opcodes 1-5 select a variant parser; any
other opcode leaves `ret` as the nil interface, so the `readFrom` call
panics. -/
def dispatchPacket (opcode : Nat) (order : ByteOrder) (rest : List Nat) : ReadOutcome :=
  if opcode = 1 then
    match rqReadFrom rest with
    | .error e => .err e
    | .ok ((f, m), _) => .ok (.rrq f m) order
  else if opcode = 2 then
    match rqReadFrom rest with
    | .error e => .err e
    | .ok ((f, m), _) => .ok (.wrq f m) order
  else if opcode = 3 then
    match dataReadFrom order rest with
    | .error e => .err e
    | .ok ((bn, d), _) => .ok (.data bn d) order
  else if opcode = 4 then
    match readU16 order rest with
    | .error e => .err e
    | .ok (bn, _) => .ok (.ack bn) order
  else if opcode = 5 then
    match errorReadFrom order rest with
    | .error e => .err e
    | .ok ((c, msg), _) => .ok (.error c msg) order
  else .panicked

/-- `ReadPacket` (lines 69-104): read the opcode as little-endian,
normalize it (detecting the byte order), then dispatch to the selected
variant parser. -/
def ReadPacket (src : List Nat) : ReadOutcome :=
  match readU16 .little src with
  | .error e => .err e
  | .ok (v, rest) =>
    let no := normalizeOpcode v
    dispatchPacket no.1 no.2 rest

/-- `writeString` (lines 165-172): the raw bytes of the string followed
by a single NUL byte. -/
def writeString (s : List Nat) : List Nat := s ++ [0]

/-- `binary.Write` of a `uint16` in the given order: the two bytes of
the value, least-significant first for little-endian. -/
def writeU16 (order : ByteOrder) (v : Nat) : List Nat :=
  match order with
  | .little => [v % 256, v / 256 % 256]
  | .big => [v / 256 % 256, v % 256]

/-- Modelled from the spec: the repository has no packet encoder (only
the `writeString` helper exists in `src/packet/packet.go`); spec
sections 4.1 and 6 describe `Encode(Packet, ByteOrder)` as the inverse
of decode: the opcode first in the given order, then the variant fields,
strings as raw bytes followed by one NUL byte, the Data payload raw with
no terminator. -/
def EncodePacket (p : Packet) (order : ByteOrder) : List Nat :=
  match p with
  | .rrq f m => writeU16 order 1 ++ writeString f ++ writeString m
  | .wrq f m => writeU16 order 2 ++ writeString f ++ writeString m
  | .data bn d => writeU16 order 3 ++ writeU16 order bn ++ d
  | .ack bn => writeU16 order 4 ++ writeU16 order bn
  | .error c msg => writeU16 order 5 ++ writeU16 order c ++ writeString msg

/-! ### The server side (`src/server.go`) -/

/-- The state touched by one execution of `PutReq.Read`: the local
running total `soFar`, the receiver field `r.data` (the internal
buffer), the pending contents of the inbound channel `r.in`, and the
packets sent so far on the outbound channel `r.out` (which the method
body never touches). -/
structure PutState where
  soFar : Nat
  data : List Nat
  inbox : List Packet
  outbox : List Packet
deriving DecidableEq, Repr

/-- Result of one iteration of the loop body of `PutReq.Read`: the next
state, a permanent block (a channel receive with nothing ever arriving),
or a runtime panic. -/
inductive StepResult where
  | next (s : PutState)
  | blocked
  | panicked
deriving DecidableEq, Repr

/-- One iteration of the loop body of `PutReq.Read` (`src/server.go`
lines 23-36), taken only while `soFar < goal` holds: if `r.data` is
empty, receive a packet from `r.in` (blocking forever if none ever
arrives); a non-`Data` packet hits `panic(4)`; a `Data` packet's payload
is assigned to `r.data`.  Nothing else happens: `soFar` is never
changed and nothing is sent on `r.out`. -/
def putReadStep (s : PutState) : StepResult :=
  if s.data.isEmpty then
    match s.inbox with
    | [] => .blocked
    | pkt :: rest =>
      match pkt with
      | .data _ payload => .next ⟨s.soFar, payload, rest, s.outbox⟩
      | _ => .panicked
  else .next s

/-- Observable status of `PutReq.Read` after a bounded number of loop
iterations: still looping, returned (the loop guard became false),
blocked forever on the channel, or panicked. -/
inductive RunResult where
  | running (s : PutState)
  | returned (s : PutState)
  | blockedForever
  | panicked
deriving DecidableEq, Repr

/-- Run the `for soFar < goal` loop of `PutReq.Read` for at most `fuel`
iterations, reporting the status reached. -/
def putReadRun (goal : Nat) : Nat → PutState → RunResult
  | 0, s => .running s
  | fuel + 1, s =>
    if s.soFar < goal then
      match putReadStep s with
      | .next s2 => putReadRun goal fuel s2
      | .blocked => .blockedForever
      | .panicked => .panicked
    else .returned s

/-- What `handleClient` does with the first inbound packet: dispatch a
write request to `handleWrite`, or nothing. -/
inductive HandleAction where
  | dispatchedWrite (filename mode : List Nat)
  | nothing
deriving DecidableEq, Repr

/-- Whether a packet is a `Wrq` (the `case *packet.Wrq` arm of
`handleClient`). -/
def Packet.isWrq : Packet → Bool
  | .wrq _ _ => true
  | _ => false

/-- `handleClient` (`src/server.go` lines 44-52): receives the first
packet from the inbound channel and switches on its type.  Only a `Wrq`
is dispatched (to `handleWrite`); the `Rrq` arm is empty and the default
arm does nothing.  The function itself sends nothing on the outbound
channel, so the second component (the packets it emits) is always
empty. -/
def handleClient (pkt : Packet) : HandleAction × List Packet :=
  match pkt with
  | .rrq _ _ => (.nothing, [])
  | .wrq f m => (.dispatchedWrite f m, [])
  | .data _ _ => (.nothing, [])
  | .ack _ => (.nothing, [])
  | .error _ _ => (.nothing, [])

/-! ### Helper lemmas -/

/-- `readString` consumes exactly one NUL-free segment and its
terminating NUL. -/
theorem readString_append (s : List Nat) :
    ∀ rest : List Nat, 0 ∉ s → readString (s ++ 0 :: rest) = .ok (s, rest) := by
  induction s with
  | nil => intro rest _; rfl
  | cons a s1 ih =>
    intro rest h
    have ha : ¬ a = 0 := fun e => h (by simp [e])
    have h1 : 0 ∉ s1 := fun hm => h (List.mem_cons_of_mem _ hm)
    simp only [List.cons_append, readString, if_neg ha, List.append_eq, ih rest h1]

/-- A successful `readString` means the source was a NUL-free segment,
a NUL byte, then the remainder. -/
theorem readString_ok_shape : ∀ src s rest : List Nat,
    readString src = .ok (s, rest) → 0 ∉ s ∧ src = s ++ 0 :: rest := by
  intro src
  induction src with
  | nil => intro s rest h; exact absurd h (by simp [readString])
  | cons b tl ih =>
    intro s rest h
    by_cases hb : b = 0
    · subst hb
      simp only [readString, if_pos rfl, Except.ok.injEq, Prod.mk.injEq] at h
      obtain ⟨rfl, rfl⟩ := h
      simp
    · simp only [readString, if_neg hb] at h
      cases hr : readString tl with
      | error e => rw [hr] at h; simp at h
      | ok pr =>
        obtain ⟨s0, r0⟩ := pr
        rw [hr] at h
        simp only [Except.ok.injEq, Prod.mk.injEq] at h
        obtain ⟨rfl, rfl⟩ := h
        obtain ⟨hmem, htl⟩ := ih s0 r0 hr
        subst htl
        refine ⟨?_, by simp⟩
        simp only [List.mem_cons, not_or]
        exact ⟨fun e => hb e.symm, hmem⟩

/-- On a source with no NUL byte, `readString` runs out and returns
`EOF`. -/
theorem readString_no_nul : ∀ src : List Nat, 0 ∉ src → readString src = .error .eof := by
  intro src
  induction src with
  | nil => intro _; rfl
  | cons b tl ih =>
    intro h
    have hb : ¬ b = 0 := fun e => h (by simp [e])
    have h1 : 0 ∉ tl := fun hm => h (List.mem_cons_of_mem _ hm)
    simp only [readString, if_neg hb, ih h1]

/-- The only error `readString` ever returns is `EOF`. -/
theorem readString_error_eof : ∀ (src : List Nat) (e : Err),
    readString src = .error e → e = .eof := by
  intro src
  induction src with
  | nil => intro e h; simpa [readString] using h.symm
  | cons b tl ih =>
    intro e h
    by_cases hb : b = 0
    · subst hb; simp [readString] at h
    · simp only [readString, if_neg hb] at h
      cases hr : readString tl with
      | error e0 =>
        rw [hr] at h
        simp only [Except.error.injEq] at h
        exact h ▸ ih e0 hr
      | ok pr => obtain ⟨s0, r0⟩ := pr; rw [hr] at h; simp at h

/-- With a non-empty buffer the loop body of `PutReq.Read` does
nothing, so the loop spins in place forever: after any number of
iterations it is still running in the same state. -/
theorem putReadRun_stuck : ∀ (fuel goal : Nat) (s : PutState),
    s.soFar = 0 → 0 < goal → s.data ≠ [] → putReadRun goal fuel s = .running s := by
  intro fuel
  induction fuel with
  | zero => intro goal s _ _ _; rfl
  | succ n ih =>
    intro goal s h0 hg hd
    have hguard : s.soFar < goal := by omega
    have hne : s.data.isEmpty = false := by
      cases hdata : s.data with
      | nil => exact absurd hdata hd
      | cons a l => rfl
    simp only [putReadRun, if_pos hguard, putReadStep, hne, Bool.false_eq_true,
      if_false]
    exact ih goal s h0 hg hd

/-- The first loop iteration of `PutReq.Read`, started with an empty
buffer and a single pending `Data` packet, receives that packet and
stores its payload; nothing else changes, and with a non-empty payload
every later iteration spins in place. -/
theorem putReadRun_data_first (goal bn : Nat) (payload : List Nat) (fuel : Nat)
    (hg : 0 < goal) (hp : payload ≠ []) :
    putReadRun goal (fuel + 1) ⟨0, [], [Packet.data bn payload], []⟩
      = .running ⟨0, payload, [], []⟩ := by
  rw [show putReadRun goal (fuel + 1) ⟨0, [], [Packet.data bn payload], []⟩
      = if (0 : Nat) < goal then putReadRun goal fuel ⟨0, payload, [], []⟩
        else .returned ⟨0, [], [Packet.data bn payload], []⟩ from rfl]
  rw [if_pos hg]
  exact putReadRun_stuck fuel goal ⟨0, payload, [], []⟩ rfl hg hp

/-- With an empty buffer and a non-`Data` packet first on the channel,
one iteration of the loop body of `PutReq.Read` reaches `panic(4)`. -/
theorem putReadStep_not_data (sf : Nat) (pkt : Packet) (rest outb : List Packet)
    (h : pkt.isData = false) :
    putReadStep ⟨sf, [], pkt :: rest, outb⟩ = .panicked := by
  cases pkt with
  | data bn p => simp [Packet.isData] at h
  | rrq f m => rfl
  | wrq f m => rfl
  | ack bn => rfl
  | error c m => rfl

/-- An opcode outside 1-5 falls past every arm of the switch in
`ReadPacket`, leaving the nil interface whose `readFrom` call panics. -/
theorem dispatchPacket_unknown (opcode : Nat) (order : ByteOrder) (rest : List Nat)
    (h : opcode = 0 ∨ 5 < opcode) : dispatchPacket opcode order rest = .panicked := by
  have h1 : ¬ opcode = 1 := by omega
  have h2 : ¬ opcode = 2 := by omega
  have h3 : ¬ opcode = 3 := by omega
  have h4 : ¬ opcode = 4 := by omega
  have h5 : ¬ opcode = 5 := by omega
  simp only [dispatchPacket, if_neg h1, if_neg h2, if_neg h3, if_neg h4, if_neg h5]

/-! ### Claims -/

set_option maxRecDepth 4096 in
/-- Claim C1: the round-trip Decode(Encode(p, order)) == p fails on the
code.  Encoding the Data packet with block number 1 and the single
payload byte 7 in little-endian gives the bytes [3, 0, 1, 0, 7];
decoding them yields a Data packet whose payload is that byte padded
with 511 zero bytes (because `Data.readFrom` ignores the byte count
returned by `Read` and keeps the full 512-byte buffer), which differs
from the original packet. -/
theorem roundtrip_fails_for_short_data :
    ReadPacket (EncodePacket (.data 1 [7]) .little)
      = .ok (.data 1 ([7] ++ List.replicate 511 0)) .little
    ∧ ReadPacket (EncodePacket (.data 1 [7]) .little) ≠ .ok (.data 1 [7]) .little := by
  constructor
  · decide
  · decide

/-- Claim C2: a legal opcode 1-5 written little-endian is read back
as itself and normalized with byte order little-endian, and `ReadPacket`
then dispatches that opcode in little-endian; the same opcode written
big-endian reads as a value above 5 (256 times the opcode), is
normalized by an 8-bit right shift back to the opcode with byte order
big-endian, and `ReadPacket` dispatches it in big-endian. -/
theorem opcode_byteorder_inference (op : Nat) (rest : List Nat)
    (hlo : 1 ≤ op) (hhi : op ≤ 5) :
    readU16 .little (writeU16 .little op ++ rest) = .ok (op, rest)
    ∧ normalizeOpcode op = (op, .little)
    ∧ ReadPacket (writeU16 .little op ++ rest) = dispatchPacket op .little rest
    ∧ readU16 .little (writeU16 .big op ++ rest) = .ok (256 * op, rest)
    ∧ normalizeOpcode (256 * op) = (op, .big)
    ∧ ReadPacket (writeU16 .big op ++ rest) = dispatchPacket op .big rest := by
  have hm : op % 256 = op := Nat.mod_eq_of_lt (by omega)
  have hd : op / 256 = 0 := Nat.div_eq_of_lt (by omega)
  have hl : readU16 .little (writeU16 .little op ++ rest) = .ok (op, rest) := by
    simp [writeU16, readU16, hm, hd]
  have hnl : normalizeOpcode op = (op, .little) := by
    unfold normalizeOpcode
    rw [if_neg (by omega)]
  have hb : readU16 .little (writeU16 .big op ++ rest) = .ok (256 * op, rest) := by
    simp [writeU16, readU16, hm, hd]
  have hshift : (256 * op) >>> 8 = op := by
    rw [Nat.shiftRight_eq_div_pow]
    norm_num
  have hnb : normalizeOpcode (256 * op) = (op, .big) := by
    unfold normalizeOpcode
    rw [if_pos (by omega), hshift]
  refine ⟨hl, hnl, ?_, hb, hnb, ?_⟩
  · unfold ReadPacket
    rw [hl]
    dsimp only
    rw [hnl]
  · unfold ReadPacket
    rw [hb]
    dsimp only
    rw [hnb]

/-- Claim C2 witness: the inference at opcode 4 with residue [9, 0]. -/
theorem opcode_byteorder_inference_witness :
    readU16 .little (writeU16 .little 4 ++ [9, 0]) = .ok (4, [9, 0])
    ∧ normalizeOpcode 4 = (4, .little)
    ∧ ReadPacket (writeU16 .little 4 ++ [9, 0]) = dispatchPacket 4 .little [9, 0]
    ∧ readU16 .little (writeU16 .big 4 ++ [9, 0]) = .ok (256 * 4, [9, 0])
    ∧ normalizeOpcode (256 * 4) = (4, .big)
    ∧ ReadPacket (writeU16 .big 4 ++ [9, 0]) = dispatchPacket 4 .big [9, 0] :=
  opcode_byteorder_inference 4 [9, 0] (by decide) (by decide)

/-- Claim C3: the Data parser never yields a short payload.  A source
holding a block number and zero payload bytes fails with `EOF` instead
of succeeding, and every successful Data decode has payload length
exactly 512 (the source payload padded with zeros), never the source
payload length n < 512. -/
theorem data_decode_never_short :
    dataReadFrom .little [1, 0] = .error .eof
    ∧ ∀ (order : ByteOrder) (src : List Nat) (bn : Nat) (d rest : List Nat),
        dataReadFrom order src = .ok ((bn, d), rest) → d.length = 512 := by
  refine ⟨rfl, ?_⟩
  intro order src bn d rest h
  unfold dataReadFrom at h
  cases hr : readU16 order src with
  | error e => rw [hr] at h; simp at h
  | ok pr =>
    obtain ⟨bn0, rest0⟩ := pr
    rw [hr] at h
    dsimp only at h
    by_cases hre : rest0 = []
    · rw [if_pos hre] at h
      simp at h
    · rw [if_neg hre] at h
      simp only [Except.ok.injEq, Prod.mk.injEq] at h
      obtain ⟨⟨-, hd⟩, -⟩ := h
      subst hd
      simp only [List.length_append, List.length_take, List.length_replicate]
      omega

set_option maxRecDepth 4096 in
/-- Claim C3 witness: the source [1, 0, 7] (block 1, one payload byte)
decodes to a payload of length 512. -/
theorem data_decode_never_short_witness :
    ([7] ++ List.replicate 511 0 : List Nat).length = 512 ∧
    dataReadFrom .little [1, 0] = .error .eof :=
  ⟨data_decode_never_short.2 .little [1, 0, 7] 1 ([7] ++ List.replicate 511 0) [] (by rfl),
   data_decode_never_short.1⟩

/-- Claim C4: an input whose opcode after byte-order normalization is 0
or greater than 5 does not make `ReadPacket` return an UnknownOpcode
error: the opcode switch leaves the packet as the nil interface and the
following `readFrom` call panics. -/
theorem readPacket_unknown_opcode_panics (src : List Nat) (v : Nat) (rest : List Nat)
    (hread : readU16 .little src = .ok (v, rest))
    (hop : (normalizeOpcode v).1 = 0 ∨ 5 < (normalizeOpcode v).1) :
    ReadPacket src = .panicked := by
  unfold ReadPacket
  rw [hread]
  dsimp only
  exact dispatchPacket_unknown _ _ rest hop

/-- Claim C4 witness: the two bytes [0, 0] carry opcode 0 and make
`ReadPacket` panic. -/
theorem readPacket_unknown_opcode_panics_witness : ReadPacket [0, 0] = .panicked :=
  readPacket_unknown_opcode_panics [0, 0] 0 [] rfl (Or.inl rfl)

/-- Claim C5: given a single inbound Data packet whose payload is
shorter than the number of bytes requested, the loop of `PutReq.Read`
never terminates and never advances the running total: after any
positive number of iterations it is still running with `soFar` equal to
0, holding the received payload. -/
theorem putReq_read_never_advances (goal bn : Nat) (payload : List Nat)
    (hg : 0 < goal) (hp : payload ≠ []) (_hlen : payload.length < goal) :
    ∀ fuel : Nat, putReadRun goal (fuel + 1) ⟨0, [], [Packet.data bn payload], []⟩
      = .running ⟨0, payload, [], []⟩ := by
  intro fuel
  exact putReadRun_data_first goal bn payload fuel hg hp

/-- Claim C5 witness: requesting 4 bytes with one inbound Data packet
of 2 payload bytes, the loop is still running with a zero total after 3
iterations. -/
theorem putReq_read_never_advances_witness :
    putReadRun 4 3 ⟨0, [], [Packet.data 1 [7, 8]], []⟩ = .running ⟨0, [7, 8], [], []⟩ :=
  putReq_read_never_advances 4 1 [7, 8] (by decide) (by decide) (by decide) 2

/-- Claim C6: when the buffer is empty and the next inbound packet is
not a Data packet, `PutReq.Read` does not return an IllegalOperation
error to its caller: the failed type assertion runs `panic(4)`, which
is fatal to the process. -/
theorem putReq_read_panics_on_non_data (goal fuel : Nat) (pkt : Packet)
    (rest : List Packet) (hg : 0 < goal) (hnd : pkt.isData = false) :
    putReadRun goal (fuel + 1) ⟨0, [], pkt :: rest, []⟩ = .panicked := by
  rw [show putReadRun goal (fuel + 1) ⟨0, [], pkt :: rest, []⟩
      = if (0 : Nat) < goal then
          (match putReadStep ⟨0, [], pkt :: rest, []⟩ with
           | .next s2 => putReadRun goal fuel s2
           | .blocked => RunResult.blockedForever
           | .panicked => RunResult.panicked)
        else .returned ⟨0, [], pkt :: rest, []⟩ from rfl]
  rw [if_pos hg, putReadStep_not_data 0 pkt rest [] hnd]

/-- Claim C6 witness: an inbound Ack packet makes the read panic on the
first iteration. -/
theorem putReq_read_panics_on_non_data_witness :
    putReadRun 1 1 ⟨0, [], [Packet.ack 1], []⟩ = .panicked :=
  putReq_read_panics_on_non_data 1 0 (Packet.ack 1) [] (by decide) rfl

/-- Claim C7: on receiving the expected Data packet, `PutReq.Read`
stores its payload in the buffer (overwriting, not appending) but sends
no Ack — after any number of iterations the outbound channel has seen
no packet at all — and never reaches a Done state, spinning forever
instead. -/
theorem putReq_read_emits_no_ack (goal bn : Nat) (payload : List Nat)
    (hg : 0 < goal) (hp : payload ≠ []) :
    ∀ fuel : Nat, ∃ s : PutState,
      putReadRun goal (fuel + 1) ⟨0, [], [Packet.data bn payload], []⟩ = .running s
      ∧ s.outbox = [] ∧ s.data = payload := by
  intro fuel
  exact ⟨⟨0, payload, [], []⟩, putReadRun_data_first goal bn payload fuel hg hp, rfl, rfl⟩

/-- Claim C7 witness: after 3 iterations on the Data packet with block
1 and payload [7, 8], nothing has been sent outbound. -/
theorem putReq_read_emits_no_ack_witness :
    ∃ s : PutState, putReadRun 4 3 ⟨0, [], [Packet.data 1 [7, 8]], []⟩ = .running s
      ∧ s.outbox = [] ∧ s.data = [7, 8] :=
  putReq_read_emits_no_ack 4 1 [7, 8] (by decide) (by decide) 2

/-- Claim C8: `Rq.readFrom` reads exactly two NUL-terminated strings,
filename then mode, consuming each through its terminator; if the
source ends before a terminating NUL is found for either string, it
fails with the read error (`EOF`) of the exhausted source. -/
theorem rq_readFrom_two_nul_strings :
    (∀ f m rest : List Nat, 0 ∉ f → 0 ∉ m →
        rqReadFrom (f ++ 0 :: (m ++ 0 :: rest)) = .ok ((f, m), rest))
    ∧ ∀ src : List Nat, src.count 0 < 2 → rqReadFrom src = .error .eof := by
  constructor
  · intro f m rest hf hm
    unfold rqReadFrom
    rw [readString_append f (m ++ 0 :: rest) hf]
    dsimp only
    rw [readString_append m rest hm]
  · intro src hcount
    cases hs : readString src with
    | error e =>
      have he : e = .eof := readString_error_eof src e hs
      subst he
      unfold rqReadFrom
      rw [hs]
    | ok pr =>
      obtain ⟨f, r1⟩ := pr
      obtain ⟨hf, hsrc⟩ := readString_ok_shape src f r1 hs
      subst hsrc
      have hfc : f.count 0 = 0 := List.count_eq_zero.mpr hf
      have hr1 : r1.count 0 = 0 := by
        simp [List.count_append, List.count_cons, hfc] at hcount
        omega
      have h01 : 0 ∉ r1 := List.count_eq_zero.mp hr1
      unfold rqReadFrom
      rw [hs]
      dsimp only
      rw [readString_no_nul r1 h01]

/-- Claim C8 witness: the bytes [97, 0, 98, 0] decode to the strings
[97] and [98]; the NUL-free source [7] fails with EOF. -/
theorem rq_readFrom_two_nul_strings_witness :
    rqReadFrom [97, 0, 98, 0] = .ok (([97], [98]), [])
    ∧ rqReadFrom [7] = .error .eof :=
  ⟨rq_readFrom_two_nul_strings.1 [97] [98] [] (by decide) (by decide),
   rq_readFrom_two_nul_strings.2 [7] (by decide)⟩

/-- Claim C9: a string field decodes successfully to `s` leaving `rest`
exactly when the source is `s` followed by a NUL byte followed by
`rest` and `s` itself contains no NUL: the decoded field is precisely
the bytes before the first NUL and the source is consumed through that
terminator. -/
theorem readString_exact_prefix (src s rest : List Nat) :
    readString src = .ok (s, rest) ↔ 0 ∉ s ∧ src = s ++ 0 :: rest := by
  constructor
  · exact readString_ok_shape src s rest
  · rintro ⟨hs, rfl⟩
    exact readString_append s rest hs

/-- Claim C9 witness: the characterization at the source [97, 0, 5]. -/
theorem readString_exact_prefix_witness :
    readString [97, 0, 5] = .ok ([97], [5])
      ↔ 0 ∉ ([97] : List Nat) ∧ [97, 0, 5] = [97] ++ 0 :: [5] :=
  readString_exact_prefix [97, 0, 5] [97] [5]

/-- Claim C10: `handleClient` dispatches only an initial Wrq; on any
other first packet it does nothing and sends nothing on the outbound
channel. -/
theorem handleClient_ignores_non_wrq (pkt : Packet) (h : pkt.isWrq = false) :
    handleClient pkt = (.nothing, []) := by
  cases pkt with
  | rrq f m => rfl
  | wrq f m => simp [Packet.isWrq] at h
  | data bn p => rfl
  | ack bn => rfl
  | error c m => rfl

/-- Claim C10 witness: a read request (GET) is silently dropped. -/
theorem handleClient_ignores_non_wrq_witness :
    handleClient (Packet.rrq [97] [98]) = (.nothing, []) :=
  handleClient_ignores_non_wrq (Packet.rrq [97] [98]) rfl
